import Mathlib

/-!
# go-service-qingstor: construction and translation layer (`utils.go`)

A shallow embedding of the adapter's validation rules, path algebra, error
normalisation, location detection and object mapping, followed by the
properties established about them.

Conventions of the embedding

* A Go `string` is a Lean `String`, read as its list of characters `data`.
* A Go `error` is `Option GoError`; `none` is the nil error.
* A Go `int64`, and a Go `int` (taken as 64 bits wide), is a `GoInt64`: an
  integer within the `int64` range; `int64` sums are reduced by `wrapInt64`.
* A call that may panic returns an `Outcome`; a call that talks to the vendor
  service or the HTTP client returns an `Exec`, which also records the calls
  that were made, in order.
-/

namespace Qingstor

/-! ## Go standard library: `strings` -/

/-- Go `strings.HasPrefix`: `len(s) >= len(pre) && s[0:len(pre)] == pre`. -/
def strings.HasPrefix (s pre : String) : Bool :=
  decide (pre.data.length ≤ s.data.length) && (s.data.take pre.data.length == pre.data)

/-- Go `strings.HasSuffix`: `len(s) >= len(suf) && s[len(s)-len(suf):] == suf`. -/
def strings.HasSuffix (s suf : String) : Bool :=
  decide (suf.data.length ≤ s.data.length) &&
    (s.data.drop (s.data.length - suf.data.length) == suf.data)

/-- Go `strings.TrimPrefix`: `s` without the leading `pre`, or `s` itself when
`s` does not start with `pre`. -/
def strings.TrimPrefix (s pre : String) : String :=
  if strings.HasPrefix s pre then String.mk (s.data.drop pre.data.length) else s

/-- The scanning loop of Go `strings.Split` for a non-empty separator: walks the
text left to right, cutting at each non-overlapping occurrence of `sep`.
`skip` counts the characters of a matched separator still to be passed over and
`cur` holds the current segment, reversed. -/
def strings.splitLoop (sep : List Char) : List Char → Nat → List Char → List (List Char)
  | [], _, cur => [cur.reverse]
  | _ :: cs, skip + 1, cur => strings.splitLoop sep cs skip cur
  | c :: cs, 0, cur =>
    if sep.isPrefixOf (c :: cs) then
      cur.reverse :: strings.splitLoop sep cs (sep.length - 1) []
    else
      strings.splitLoop sep cs 0 (c :: cur)

/-- Go `strings.Split`: all substrings of `s` separated by `sep`; with an empty
separator the text is exploded into its characters. -/
def strings.Split (s sep : String) : List String :=
  if sep.data.isEmpty then s.data.map (fun c => String.mk [c])
  else (strings.splitLoop sep.data s.data 0 []).map String.mk

/-! ## Go standard library: `regexp` (the fragment used by the bucket-name rule) -/

/-- Abstract syntax of the regular expressions in use: the anchors `^` and `$`
(without the multi-line flag they match only at the start and the end of the
text), a character class given by its ranges, concatenation, and the bounded
repetition `r{min,max}`. -/
inductive Regexp where
  | beginText
  | endText
  | charClass (ranges : List (Char × Char))
  | concat (r1 r2 : Regexp)
  | repeat (r : Regexp) (min max : Nat)

/-- Membership of a character in a class given by inclusive ranges. -/
def inClass (ranges : List (Char × Char)) (c : Char) : Bool :=
  ranges.any (fun r => decide (r.1 ≤ c) && decide (c ≤ r.2))

/-- Backtracking matcher for `r{lo,hi}`: `m` matches one copy of `r`, `k` is the
continuation that matches the rest of the pattern. -/
def repeatK (m : Nat → List Char → (Nat → List Char → Bool) → Bool) :
    Nat → Nat → Nat → List Char → (Nat → List Char → Bool) → Bool
  | lo, 0, pos, s, k => lo == 0 && k pos s
  | 0, hi + 1, pos, s, k => k pos s || m pos s (fun p t => repeatK m 0 hi p t k)
  | lo + 1, hi + 1, pos, s, k => m pos s (fun p t => repeatK m lo hi p t k)

/-- Backtracking matcher in continuation-passing style: `pos` is the number of
characters already consumed, the list is the remaining text, and `k` decides
whether the rest of the pattern matches from where this piece stops. -/
def Regexp.matchK : Regexp → Nat → List Char → (Nat → List Char → Bool) → Bool
  | .beginText, pos, s, k => pos == 0 && k pos s
  | .endText, pos, s, k => s.isEmpty && k pos s
  | .charClass _, _, [], _ => false
  | .charClass rs, pos, c :: s, k => inClass rs c && k (pos + 1) s
  | .concat r1 r2, pos, s, k => r1.matchK pos s (fun p t => r2.matchK p t k)
  | .repeat r lo hi, pos, s, k => repeatK r.matchK lo hi pos s k

/-- Go `(*Regexp).MatchString`: whether the text contains a match, starting at
any position. -/
def Regexp.MatchString (re : Regexp) (s : String) : Bool :=
  (List.range (s.data.length + 1)).any
    (fun i => re.matchK i (s.data.drop i) (fun _ _ => true))

/-! ## Bucket-name rule -/

/-- The pattern `^[a-z\d][a-z-\d]{4,61}[a-z\d]$`; `\d` is the ASCII digits. -/
def bucketNameRegexp : Regexp :=
  .concat .beginText
    (.concat (.charClass [('a', 'z'), ('0', '9')])
      (.concat (.repeat (.charClass [('a', 'z'), ('-', '-'), ('0', '9')]) 4 61)
        (.concat (.charClass [('a', 'z'), ('0', '9')]) .endText)))

/-- IsBucketNameValid will check whether given string is a valid bucket name. -/
def IsBucketNameValid (s : String) : Bool :=
  bucketNameRegexp.MatchString s

/-- A lowercase ASCII letter or an ASCII digit (the wording of the naming rule
for the first and the last character). -/
def asciiLowerOrDigit (c : Char) : Prop := c.isLower = true ∨ c.isDigit = true

/-- The bucket-naming rule in words: 6 to 63 characters, each a lowercase
letter, a digit or a hyphen, the first and the last not a hyphen. -/
def BucketNameRule (s : String) : Prop :=
  (6 ≤ s.length ∧ s.length ≤ 63) ∧
  (∀ c ∈ s.data, asciiLowerOrDigit c ∨ c = '-') ∧
  (∃ c, s.data.head? = some c ∧ asciiLowerOrDigit c) ∧
  (∃ d, s.data.getLast? = some d ∧ asciiLowerOrDigit d)

/-! ## Connection configuration and errors -/

/-- The fields of the vendor connection configuration (`qsconfig.Config`) that
this layer reads or writes. -/
structure Config where
  AccessKeyID : String
  Host : String
  Port : Int
  Protocol : String
  DisableURICleaning : Bool
deriving DecidableEq

/-- The vendor error `qserror.QingStorError`. -/
structure QingStorError where
  StatusCode : Int
  Code : String
  Message : String
  RequestID : String
  ReferenceURL : String
deriving DecidableEq

/-- Error values.

* `sentinel name` is a package-level error variable, identified by its name.
* `errorString msg` is an error without an `Unwrap` method, such as the result
  of `fmt.Errorf` without `%w`.
* `qingstor e` is a `*qserror.QingStorError`; the type has no `Unwrap` method.
* `wrapError format err shown` is an error whose `Unwrap` returns `err`, such as
  the result of `fmt.Errorf(format, err, shown)` with `%w` for `err`; `shown` is
  the vendor error printed by a further `%v`, if any.
* `pairRequired key` is the parse error for a missing required option.
* `serviceError` is `services.ServiceError`; its `Unwrap` returns `Err`, and the
  back-reference to the owning Service is held as that Service's configuration. -/
inductive GoError where
  | sentinel (name : String)
  | errorString (msg : String)
  | qingstor (e : QingStorError)
  | wrapError (format : String) (err : GoError) (shown : Option QingStorError)
  | pairRequired (key : String)
  | serviceError (Op : String) (Err : GoError) (Servicer : Config) (Name : String)
deriving DecidableEq

/-- The error variable `services.ErrObjectNotExist` of the storage library. -/
def services.ErrObjectNotExist : GoError := .sentinel "services.ErrObjectNotExist"

/-- The error variable `services.ErrPermissionDenied` of the storage library. -/
def services.ErrPermissionDenied : GoError := .sentinel "services.ErrPermissionDenied"

/-- The package error variable `ErrInvalidBucketName`. -/
def ErrInvalidBucketName : GoError := .sentinel "ErrInvalidBucketName"

/-- The package error variable `ErrInvalidWorkDir`. -/
def ErrInvalidWorkDir : GoError := .sentinel "ErrInvalidWorkDir"

/-- The chain of an error: the error itself, then what `Unwrap` yields,
repeatedly. -/
def GoError.chain : GoError → List GoError
  | .wrapError f err sh => .wrapError f err sh :: err.chain
  | .serviceError op err sv n => .serviceError op err sv n :: err.chain
  | .sentinel n => [.sentinel n]
  | .errorString m => [.errorString m]
  | .qingstor e => [.qingstor e]
  | .pairRequired k => [.pairRequired k]

/-- Go `errors.Is`: whether some error of the chain equals `target`. -/
def errors.Is : GoError → GoError → Bool
  | .wrapError f err sh, target =>
    decide (GoError.wrapError f err sh = target) || errors.Is err target
  | .serviceError op err sv n, target =>
    decide (GoError.serviceError op err sv n = target) || errors.Is err target
  | err, target => decide (err = target)

/-- Go `errors.As` with a target of type `*qserror.QingStorError`: the first
vendor error of the chain, if there is one. -/
def errors.As : GoError → Option QingStorError
  | .qingstor e => some e
  | .wrapError _ err _ => errors.As err
  | .serviceError _ err _ _ => errors.As err
  | _ => none

/-- The error normaliser `formatError`. -/
def formatError (err : Option GoError) : Option GoError :=
  match err.bind errors.As with
  | none => err
  | some e =>
    if e.Code = "" then
      -- code=="" means this response doesn't have body.
      if e.StatusCode = 404 then
        some (.wrapError "%w: %v" services.ErrObjectNotExist (some e))
      else
        some (.qingstor e)
    else if e.Code = "permission_denied" then
      some (.wrapError "%w: %v" services.ErrPermissionDenied (some e))
    else if e.Code = "object_not_exists" then
      some (.wrapError "%w: %v" services.ErrObjectNotExist (some e))
    else
      some (.qingstor e)

/-! ## Machine integers -/

/-- The smallest `int64`. -/
def minInt64 : Int := -9223372036854775808

/-- The largest `int64`. -/
def maxInt64 : Int := 9223372036854775807

/-- Go `int64`, and Go `int` on a 64-bit platform: an integer between
`minInt64` and `maxInt64`. -/
abbrev GoInt64 : Type := { v : Int // minInt64 ≤ v ∧ v ≤ maxInt64 }

/-- The value an `int64` computation holds when its exact result is `x`: `x`
reduced modulo 2^64 into the `int64` range (two's complement). -/
def wrapInt64 (x : Int) : Int :=
  (x + 9223372036854775808) % 18446744073709551616 - 9223372036854775808

/-! ## Go standard library: `time` -/

/-- Time zones a `time.Time` of this layer can carry. -/
inductive Location where
  | UTC
  | Local
deriving DecidableEq

/-- Go `time.Time`, as an instant: seconds elapsed since January 1 of year 1,
00:00:00 UTC (held in an `int64`), nanoseconds within the second, and a time
zone. -/
structure Time where
  sec : Int
  nsec : Int
  loc : Location
deriving DecidableEq

/-- The zero value `time.Time{}`: January 1, year 1, 00:00:00 UTC. -/
def Time.zero : Time := { sec := 0, nsec := 0, loc := .UTC }

/-- Seconds from January 1 of year 1 to January 1, 1970 (Go `unixToInternal`). -/
def unixToInternal : Int := (1969 * 365 + 1969 / 4 - 1969 / 100 + 1969 / 400) * 86400

/-- Go `unixTime(sec, nsec)`: the local time whose stored seconds are the
`int64` sum `sec + unixToInternal`. -/
def time.unixTime (sec nsec : Int) : Time :=
  { sec := wrapInt64 (sec + unixToInternal), nsec := nsec, loc := .Local }

/-- Go `time.Unix(sec, nsec)`: the local time `sec` seconds and `nsec`
nanoseconds after January 1, 1970 UTC; an `nsec` outside `[0, 999999999]` is
carried into the seconds. All sums on the seconds are `int64` sums. -/
def time.Unix (sec nsec : GoInt64) : Time :=
  if nsec.val < 0 ∨ 1000000000 ≤ nsec.val then
    let n := nsec.val.tdiv 1000000000
    let sec1 := wrapInt64 (sec.val + n)
    let nsec1 := nsec.val - n * 1000000000
    if nsec1 < 0 then time.unixTime (wrapInt64 (sec1 - 1)) (nsec1 + 1000000000)
    else time.unixTime sec1 nsec1
  else time.unixTime sec.val nsec.val

/-- The converter `convertUnixTimestampToTime`; the argument is a Go `int`, and
`int64(v)` leaves it as it is. -/
def convertUnixTimestampToTime (v : GoInt64) : Time :=
  if v.val = 0 then Time.zero else time.Unix v ⟨0, by decide⟩

/-! ## Outcomes and recorded calls -/

/-- Result of a call that may panic. -/
inductive Outcome (α : Type) where
  | ret (v : α)
  | panic (msg : String)
deriving DecidableEq

/-- Calls that leave the process: the HEAD request of the HTTP client and the
bucket lookup of the vendor service. -/
inductive Call where
  | head (url : String)
  | bucket (name location : String)
deriving DecidableEq

/-- Result of a call together with the outside calls it made, in order. -/
structure Exec (α : Type) where
  out : Outcome α
  calls : List Call

/-! ## Service and Storage handles -/

/-- The part of an `http.Response` that is read: status code and headers (keyed
by canonical header name). -/
structure Response where
  StatusCode : Int
  Header : List (String × String)
deriving DecidableEq

/-- Go `http.Header.Get`: the first value stored under the key, or the empty
string. -/
def Response.HeaderGet (r : Response) (key : String) : String :=
  match r.Header.lookup key with
  | some v => v
  | none => ""

/-- The header name `headers.Location` of the storage library. -/
def headers.Location : String := "Location"

/-- Go `http.StatusTemporaryRedirect`. -/
def http.StatusTemporaryRedirect : Int := 307

/-- The vendor `service.Properties` of a bucket. -/
structure Properties where
  BucketName : String
  Zone : String
deriving DecidableEq

/-- The vendor bucket handle `service.Bucket`. -/
structure Bucket where
  Config : Config
  Properties : Properties
deriving DecidableEq

/-- Service is the qingstor service config. The HTTP client and the vendor
service are held as the behaviour of the one method of each that is called:
`Head` for `client.Head(url)` and `Bucket` for `service.Bucket(name, location)`. -/
structure Service where
  config : Config
  Head : String → Except GoError Response
  Bucket : String → String → Except GoError Bucket

/-- Storage is the qingstor object storage client. -/
structure Storage where
  bucket : Bucket
  config : Config
  properties : Properties
  workDir : String
deriving DecidableEq

/-! ## Configuration pairs -/

/-- A configuration pair: an option name with its typed value. Options that
storage construction does not read are kept by name only. -/
inductive Pair where
  | name (v : String)
  | location (v : String)
  | workDir (v : String)
  | disableURICleaning (v : Bool)
  | other (key : String)
deriving DecidableEq

/-- The parsed options of storage construction (`pairStorageNew`). -/
structure pairStorageNew where
  HasName : Bool
  Name : String
  HasDisableURICleaning : Bool
  DisableURICleaning : Bool
  HasLocation : Bool
  Location : String
  HasWorkDir : Bool
  WorkDir : String
deriving DecidableEq

/-- Modelled from the spec: the generated parser `parsePairStorageNew` lives
outside `utils.go`. One step of it: the pair sets its option, a later pair for
the same option replacing an earlier one (last wins). -/
def pairStorageNew.set (opt : pairStorageNew) : Pair → pairStorageNew
  | .name v => { opt with HasName := true, Name := v }
  | .location v => { opt with HasLocation := true, Location := v }
  | .workDir v => { opt with HasWorkDir := true, WorkDir := v }
  | .disableURICleaning v => { opt with HasDisableURICleaning := true, DisableURICleaning := v }
  | .other _ => opt

/-- Modelled from the spec: the generated parser `parsePairStorageNew` lives
outside `utils.go`. Storage-new parsing requires a bucket name and accepts
an optional location, an optional working directory and an optional flag that
disables URI cleaning; a missing bucket name is a parse error that identifies
the option. -/
def parsePairStorageNew (pairs : List Pair) : Except GoError pairStorageNew :=
  let opt := pairs.foldl pairStorageNew.set
    { HasName := false, Name := "", HasDisableURICleaning := false, DisableURICleaning := false,
      HasLocation := false, Location := "", HasWorkDir := false, WorkDir := "" }
  if opt.HasName then .ok opt else .error (.pairRequired "name")

/-! ## Working directory and path translation -/

/-- The validator `isWorkDirValid`: work dir must start with only one "/" (abs
path), and end with only one "/" (a dir). -/
def isWorkDirValid (wd : String) : Bool :=
  strings.HasPrefix wd "/" && -- must start with "/"
    strings.HasSuffix wd "/" && -- must end with "/"
    !strings.HasPrefix wd "//" && -- not start with more than one "/"
    !strings.HasSuffix wd "//" -- not end with more than one "/"

/-- The shape of a working directory in words: exactly "/", or a text that
begins with "/" but not with "//" and ends with "/" but not with "//". -/
def WorkDirShape (wd : String) : Prop :=
  wd = "/" ∨
    (['/'] <+: wd.data ∧ ¬ (['/', '/'] <+: wd.data) ∧
      ['/'] <:+ wd.data ∧ ¬ (['/', '/'] <:+ wd.data))

/-- The method `getAbsPath` will calculate object storage's abs path. -/
def Storage.getAbsPath (s : Storage) (path : String) : String :=
  let pre := strings.TrimPrefix s.workDir "/"
  pre ++ path

/-- The method `getRelPath` will get object storage's rel path. -/
def Storage.getRelPath (s : Storage) (path : String) : String :=
  let pre := strings.TrimPrefix s.workDir "/"
  strings.TrimPrefix path pre

/-! ## Service operations -/

/-- The wrapping helper `(*Service).formatError`: nil stays nil, any other error
is normalised and wrapped into a service error that carries the operation.
The normaliser never turns a non-nil error into nil (`formatError_some`), so the
last branch is never taken. -/
def Service.formatError (s : Service) (op : String) (err : Option GoError) (name : String) :
    Option GoError :=
  match err with
  | none => none
  | some e =>
    match Qingstor.formatError (some e) with
    | some inner => some (.serviceError op inner s.config name)
    | none => none

/-- The address probed by `detectLocation`:
`fmt.Sprintf("%s://%s.%s:%d", Protocol, name, Host, Port)`. -/
def Service.locationURL (s : Service) (name : String) : String :=
  s.config.Protocol ++ "://" ++ name ++ "." ++ s.config.Host ++ ":" ++ toString s.config.Port

/-- The method `detectLocation`. The deferred call of `formatError` rewrites the
error of every return; when indexing the split header panics the deferred call
runs with a nil error and the panic goes on to the caller. -/
def Service.detectLocation (s : Service) (name : String) : Exec (String × Option GoError) :=
  let url := s.locationURL name
  match s.Head url with
  | .error err =>
    { out := .ret ("", s.formatError "detect_location" (some err) ""), calls := [.head url] }
  | .ok r =>
    if r.StatusCode ≠ http.StatusTemporaryRedirect then
      let err := GoError.errorString ("head status is " ++ toString r.StatusCode ++
        " instead of " ++ toString http.StatusTemporaryRedirect)
      { out := .ret ("", s.formatError "detect_location" (some err) ""), calls := [.head url] }
    else
      -- Example URL: https://bucket.zone.qingstor.com
      let parts := strings.Split (r.HeaderGet headers.Location) "."
      match parts[1]? with
      | none =>
        { out := .panic ("runtime error: index out of range [1] with length " ++
            toString parts.length),
          calls := [.head url] }
      | some location =>
        { out := .ret (location, s.formatError "detect_location" none ""), calls := [.head url] }

/-- The method `newStorage`. -/
def Service.newStorage (s : Service) (pairs : List Pair) : Exec (Option Storage × Option GoError) :=
  match parsePairStorageNew pairs with
  | .error err => { out := .ret (none, some err), calls := [] }
  | .ok opt =>
    -- WorkDir should be an abs path, start and ends with "/"
    if opt.HasWorkDir && !isWorkDirValid opt.WorkDir then
      { out := .ret (none, some ErrInvalidWorkDir), calls := [] }
    else
      -- set work dir into root path if no work dir passed
      let opt := if !opt.HasWorkDir then { opt with WorkDir := "/" } else opt
      if !IsBucketNameValid opt.Name then
        { out := .ret (none, some ErrInvalidBucketName), calls := [] }
      else
        -- Detect location automatically
        let detected : Exec (String × Option GoError) :=
          if !opt.HasLocation then s.detectLocation opt.Name
          else { out := .ret (opt.Location, none), calls := [] }
        match detected.out with
        | .panic msg => { out := .panic msg, calls := detected.calls }
        | .ret (_, some err) => { out := .ret (none, some err), calls := detected.calls }
        | .ret (location, none) =>
          match s.Bucket opt.Name location with
          | .error err =>
            { out := .ret (none, some err),
              calls := detected.calls ++ [.bucket opt.Name location] }
          | .ok bucket =>
            let st : Storage :=
              { bucket := bucket, config := bucket.Config, properties := bucket.Properties,
                workDir := "/" }
            let st := if opt.HasWorkDir then { st with workDir := opt.WorkDir } else st
            -- `st.config` and `st.bucket.Config` are one pointer: the write shows in both
            let st :=
              if opt.HasDisableURICleaning then
                let cfg := { st.config with DisableURICleaning := opt.DisableURICleaning }
                { st with config := cfg, bucket := { st.bucket with Config := cfg } }
              else st
            { out := .ret (some st, none),
              calls := detected.calls ++ [.bucket opt.Name location] }

/-! ## Object mapping -/

/-- The vendor listing record `service.KeyType`; a nil pointer field is `none`. -/
structure KeyType where
  Key : Option String
  Size : Option GoInt64
  Modified : Option GoInt64
  MimeType : Option String
  StorageClass : Option String
  Etag : Option String
deriving DecidableEq

/-- The vendor helper `service.IntValue`: the pointed-to value, or 0 for nil. -/
def service.IntValue (v : Option GoInt64) : GoInt64 := v.getD ⟨0, by decide⟩

/-- The vendor helper `service.Int64Value`: the pointed-to value, or 0 for nil. -/
def service.Int64Value (v : Option GoInt64) : GoInt64 := v.getD ⟨0, by decide⟩

/-- The vendor helper `service.StringValue`: the pointed-to value, or "" for nil. -/
def service.StringValue (v : Option String) : String := v.getD ""

/-- Object types of the storage library. -/
inductive ObjectType where
  | ObjectTypeFile
  | ObjectTypeDir
  | ObjectTypeInvalid
deriving DecidableEq

/-- The generic object-metadata record `typ.Object`: identity, name, type (the
field `Typ`), and the optional metadata, each `none` until its setter is called. -/
structure Object where
  done : Bool
  ID : String
  Name : String
  Typ : ObjectType
  size : Option GoInt64
  updatedAt : Option Time
  contentType : Option String
  storageClass : Option String
  etag : Option String
deriving DecidableEq

/-- The method `newObject`: a fresh object of this Storage with nothing set. -/
def Storage.newObject (_s : Storage) (done : Bool) : Object :=
  { done := done, ID := "", Name := "", Typ := .ObjectTypeInvalid, size := none,
    updatedAt := none, contentType := none, storageClass := none, etag := none }

/-- All available storage classes are listed here. -/
def StorageClassStandard : String := "STANDARD"

/-- The infrequent-access storage class. -/
def StorageClassStandardIA : String := "STANDARD_IA"

/-- Modelled from the spec: the helper `setStorageClass` is defined outside
`utils.go`. A vendor storage-class string is recorded when it is one of the two
recognised classes; any other value is left unset. -/
def setStorageClass (o : Object) (v : String) : Object :=
  if v = StorageClassStandard ∨ v = StorageClassStandardIA then { o with storageClass := some v }
  else o

/-- The method `formatFileObject`; dereferencing a nil `Key` panics. -/
def Storage.formatFileObject (s : Storage) (v : KeyType) : Outcome (Object × Option GoError) :=
  let o := s.newObject false
  match v.Key with
  | none => .panic "runtime error: invalid memory address or nil pointer dereference"
  | some key =>
    let o := { o with ID := key }
    let o := { o with Name := s.getRelPath key }
    let o := { o with Typ := ObjectType.ObjectTypeFile }
    let o := { o with size := some (service.Int64Value v.Size) }
    let o := { o with updatedAt := some (convertUnixTimestampToTime (service.IntValue v.Modified)) }
    let o := if v.MimeType ≠ none then { o with contentType := some (service.StringValue v.MimeType) }
      else o
    let o := if service.StringValue v.StorageClass ≠ "" then
        setStorageClass o (service.StringValue v.StorageClass)
      else o
    let o := if v.Etag ≠ none then { o with etag := some (service.StringValue v.Etag) } else o
    .ret (o, none)

/-- The predicate `isObjectDirectory`. -/
def isObjectDirectory (o : KeyType) : Bool :=
  service.StringValue o.MimeType == "application/x-directory"

/-! ## Sample values -/

/-- A connection configuration for the examples. -/
def sampleConfig : Config :=
  { AccessKeyID := "key", Host := "qingstor.example.com", Port := 443, Protocol := "https",
    DisableURICleaning := false }

/-- A Service whose HTTP client answers every HEAD request with `r` and whose
vendor service hands out a bucket handle for any name and location. -/
def sampleService (r : Response) : Service :=
  { config := sampleConfig,
    Head := fun _ => .ok r,
    Bucket := fun name location =>
      .ok { Config := sampleConfig, Properties := { BucketName := name, Zone := location } } }

/-- A redirect to `bucket.zone.domain`. -/
def redirectResponse : Response :=
  { StatusCode := 307, Header := [("Location", "https://mybucket.pek3a.qingstor.example.com")] }

/-- A redirect without a `Location` header. -/
def bareRedirect : Response := { StatusCode := 307, Header := [] }

/-- A redirect whose `Location` header is empty. -/
def emptyRedirect : Response := { StatusCode := 307, Header := [("Location", "")] }

/-- A redirect whose `Location` header contains no dot. -/
def dotlessRedirect : Response := { StatusCode := 307, Header := [("Location", "localhost")] }

/-- A response that is not a redirect. -/
def okResponse : Response := { StatusCode := 200, Header := [] }

/-- A Storage with working directory "/data/". -/
def dataStorage : Storage :=
  { bucket := { Config := sampleConfig, Properties := { BucketName := "mybucket", Zone := "pek3a" } },
    config := sampleConfig,
    properties := { BucketName := "mybucket", Zone := "pek3a" },
    workDir := "/data/" }

/-- A vendor error without a body, status 404. -/
def bodylessNotFound : QingStorError :=
  { StatusCode := 404, Code := "", Message := "", RequestID := "", ReferenceURL := "" }

/-- A vendor error with code "object_not_exists" and a status other than 404. -/
def objectNotExists : QingStorError :=
  { StatusCode := 400, Code := "object_not_exists", Message := "", RequestID := "",
    ReferenceURL := "" }

/-- A vendor error with code "permission_denied". -/
def permissionDenied : QingStorError :=
  { StatusCode := 403, Code := "permission_denied", Message := "", RequestID := "",
    ReferenceURL := "" }

/-- A vendor error with a code outside the recognised ones. -/
def internalError : QingStorError :=
  { StatusCode := 500, Code := "internal_error", Message := "", RequestID := "",
    ReferenceURL := "" }

/-- An error that wraps a vendor error, as `fmt.Errorf("list: %w", e)` does. -/
def wrapped (e : QingStorError) : GoError := .wrapError "list: %w" (.qingstor e) none

/-- A vendor listing record with a key and nothing else. -/
def sampleKey : KeyType :=
  { Key := some "data/x.txt", Size := none, Modified := none, MimeType := none,
    StorageClass := none, Etag := none }

/-- A vendor listing record modified 1600000000 seconds after the epoch. -/
def stampedKey : KeyType :=
  { Key := some "data/x.txt", Size := none, Modified := some ⟨1600000000, by decide⟩,
    MimeType := none, StorageClass := none, Etag := none }

/-- A vendor listing record whose modification timestamp is the largest `int`. -/
def latestKey : KeyType :=
  { Key := some "data/x.txt", Size := none, Modified := some ⟨9223372036854775807, by decide⟩,
    MimeType := none, StorageClass := none, Etag := none }

/-- A vendor listing record whose `Key` pointer is nil. -/
def keylessRecord : KeyType :=
  { Key := none, Size := none, Modified := some ⟨1600000000, by decide⟩, MimeType := none,
    StorageClass := none, Etag := none }

/-! ## Properties: bucket-name rule -/

theorem inClass_edge (c : Char) :
    inClass [('a', 'z'), ('0', '9')] c = (c.isLower || c.isDigit) := by
  simp [inClass, Char.isLower, Char.isDigit, Char.le_def, UInt32.le_def]

theorem inClass_middle (c : Char) :
    inClass [('a', 'z'), ('-', '-'), ('0', '9')] c = (c.isLower || c == '-' || c.isDigit) := by
  by_cases h : c = '-'
  · subst h; decide
  · have h2 : ¬ ('-' ≤ c ∧ c ≤ '-') := fun ⟨h1, h2⟩ => h (Char.le_antisymm h2 h1)
    have h3 : (decide ('-' ≤ c) && decide (c ≤ '-')) = false := by
      simpa using h2
    have h4 : (c == '-') = false := by simpa using h
    simp only [inClass, List.any_cons, List.any_nil, Bool.or_false, h3, h4, Bool.false_or,
      Bool.or_false]
    simp [Char.isLower, Char.isDigit, Char.le_def, UInt32.le_def]

theorem charClass_matchK (rs : List (Char × Char)) (pos : Nat) (s : List Char)
    (k : Nat → List Char → Bool) :
    (Regexp.charClass rs).matchK pos s k = true ↔
      ∃ c t, s = c :: t ∧ inClass rs c = true ∧ k (pos + 1) t = true := by
  cases s with
  | nil => simp [Regexp.matchK]
  | cons c t =>
    simp only [Regexp.matchK, Bool.and_eq_true]
    constructor
    · rintro ⟨h1, h2⟩; exact ⟨c, t, rfl, h1, h2⟩
    · rintro ⟨c1, t1, h, h1, h2⟩
      cases h
      exact ⟨h1, h2⟩

theorem repeatK_charClass (rs : List (Char × Char)) (k : Nat → List Char → Bool) :
    ∀ (hi lo pos : Nat) (s : List Char),
      repeatK (Regexp.charClass rs).matchK lo hi pos s k = true ↔
        ∃ n, lo ≤ n ∧ n ≤ hi ∧ n ≤ s.length ∧ (∀ c ∈ s.take n, inClass rs c = true) ∧
          k (pos + n) (s.drop n) = true := by
  intro hi
  induction hi with
  | zero =>
    intro lo pos s
    cases lo with
    | zero =>
      simp only [repeatK]
      constructor
      · intro h; exact ⟨0, by simpa using h⟩
      · rintro ⟨n, -, hn, -, -, hk⟩
        obtain rfl : n = 0 := by omega
        simpa using hk
    | succ lo =>
      simp only [repeatK]
      constructor
      · intro h; simp at h
      · rintro ⟨n, h1, h2, -⟩; omega
  | succ hi ih =>
    intro lo pos s
    cases lo with
    | zero =>
      simp only [repeatK, Bool.or_eq_true, charClass_matchK, ih]
      constructor
      · rintro (h | ⟨c, t, rfl, hc, n, -, hn, hlen, hall, hk⟩)
        · exact ⟨0, by simpa using h⟩
        · refine ⟨n + 1, by omega, by omega, by simpa using hlen, ?_, ?_⟩
          · intro x hx
            simp only [List.take_succ_cons, List.mem_cons] at hx
            rcases hx with rfl | hx
            · exact hc
            · exact hall x hx
          · simpa [Nat.add_assoc, Nat.add_comm 1 n] using hk
      · rintro ⟨n, -, hn, hlen, hall, hk⟩
        cases n with
        | zero => left; simpa using hk
        | succ n =>
          right
          cases s with
          | nil => simp at hlen
          | cons c t =>
            refine ⟨c, t, rfl, hall c (by simp), n, by omega, by omega, by simpa using hlen, ?_, ?_⟩
            · intro x hx; exact hall x (by simp [hx])
            · simpa [Nat.add_assoc, Nat.add_comm 1 n] using hk
    | succ lo =>
      simp only [repeatK, charClass_matchK, ih]
      constructor
      · rintro ⟨c, t, rfl, hc, n, hlo, hn, hlen, hall, hk⟩
        refine ⟨n + 1, by omega, by omega, by simpa using hlen, ?_, ?_⟩
        · intro x hx
          simp only [List.take_succ_cons, List.mem_cons] at hx
          rcases hx with rfl | hx
          · exact hc
          · exact hall x hx
        · simpa [Nat.add_assoc, Nat.add_comm 1 n] using hk
      · rintro ⟨n, hlo, hn, hlen, hall, hk⟩
        cases n with
        | zero => omega
        | succ n =>
          cases s with
          | nil => simp at hlen
          | cons c t =>
            refine ⟨c, t, rfl, hall c (by simp), n, by omega, by omega, by simpa using hlen, ?_, ?_⟩
            · intro x hx; exact hall x (by simp [hx])
            · simpa [Nat.add_assoc, Nat.add_comm 1 n] using hk


theorem bucketNameRegexp_matchK (pos : Nat) (l : List Char) :
    bucketNameRegexp.matchK pos l (fun _ _ => true) = true ↔
      pos = 0 ∧ ∃ c mid d, l = c :: (mid ++ [d]) ∧
        inClass [('a', 'z'), ('0', '9')] c = true ∧
        (∀ x ∈ mid, inClass [('a', 'z'), ('-', '-'), ('0', '9')] x = true) ∧
        4 ≤ mid.length ∧ mid.length ≤ 61 ∧
        inClass [('a', 'z'), ('0', '9')] d = true := by
  have hconcat : ∀ (r1 r2 : Regexp) (p : Nat) (t : List Char) (k : Nat → List Char → Bool),
      (Regexp.concat r1 r2).matchK p t k = r1.matchK p t (fun p t => r2.matchK p t k) := by
    intros; rfl
  have hend : ∀ (p : Nat) (t : List Char) (k : Nat → List Char → Bool),
      Regexp.endText.matchK p t k = (t.isEmpty && k p t) := by
    intros; rfl
  have hbegin : ∀ (p : Nat) (t : List Char) (k : Nat → List Char → Bool),
      Regexp.beginText.matchK p t k = (p == 0 && k p t) := by
    intros; rfl
  have hrep : ∀ (r : Regexp) (lo hi p : Nat) (t : List Char) (k : Nat → List Char → Bool),
      (Regexp.repeat r lo hi).matchK p t k = repeatK r.matchK lo hi p t k := by
    intros; rfl
  unfold bucketNameRegexp
  rw [hconcat, hbegin, hconcat, Bool.and_eq_true, charClass_matchK]
  simp only [hconcat, hrep, hend, repeatK_charClass, charClass_matchK, Bool.and_true,
    beq_iff_eq, List.isEmpty_iff]
  constructor
  · rintro ⟨hp, c, t, rfl, hc, n, h4, h61, hlen, hall, d, t2, hd, hdc, ht2⟩
    subst ht2
    refine ⟨hp, c, t.take n, d, ?_, hc, hall, ?_, ?_, hdc⟩
    · rw [← hd, List.take_append_drop]
    · rw [List.length_take]; omega
    · rw [List.length_take]; omega
  · rintro ⟨hp, c, mid, d, rfl, hc, hall, h4, h61, hdc⟩
    refine ⟨hp, c, mid ++ [d], rfl, hc, mid.length, h4, h61, by simp, by simpa using hall,
      d, [], by simp, hdc, rfl⟩


theorem MatchString_bucketNameRegexp (s : String) :
    bucketNameRegexp.MatchString s = true ↔
      ∃ c mid d, s.data = c :: (mid ++ [d]) ∧
        inClass [('a', 'z'), ('0', '9')] c = true ∧
        (∀ x ∈ mid, inClass [('a', 'z'), ('-', '-'), ('0', '9')] x = true) ∧
        4 ≤ mid.length ∧ mid.length ≤ 61 ∧
        inClass [('a', 'z'), ('0', '9')] d = true := by
  simp only [Regexp.MatchString, List.any_eq_true, List.mem_range, bucketNameRegexp_matchK]
  constructor
  · rintro ⟨i, -, rfl, h⟩
    simpa using h
  · intro h
    exact ⟨0, by omega, rfl, by simpa using h⟩

theorem utf8ByteSize_ascii (l : List Char)
    (h : ∀ c ∈ l, asciiLowerOrDigit c ∨ c = '-') : String.utf8ByteSize ⟨l⟩ = l.length := by
  induction l with
  | nil => rfl
  | cons c t ih =>
    have ht := ih (fun x hx => h x (List.mem_cons_of_mem _ hx))
    simp only [String.utf8ByteSize, String.utf8ByteSize.go, List.length_cons] at ht ⊢
    rw [ht]
    congr 1
    have hc := h c (List.mem_cons_self _ _)
    have : c.val ≤ 127 := by
      unfold asciiLowerOrDigit at hc
      rcases hc with (hc | hc) | rfl
      · simp [Char.isLower, UInt32.le_def] at hc ⊢
        bv_omega
      · simp [Char.isDigit, UInt32.le_def] at hc ⊢
        bv_omega
      · decide
    simp [Char.utf8Size, this]

theorem IsBucketNameValid_iff_BucketNameRule (s : String) :
    IsBucketNameValid s = true ↔ BucketNameRule s := by
  unfold IsBucketNameValid BucketNameRule
  rw [MatchString_bucketNameRegexp]
  simp only [inClass_edge, inClass_middle, Bool.or_eq_true, beq_iff_eq, asciiLowerOrDigit,
    String.length]
  constructor
  · rintro ⟨c, mid, d, hs, hc, hall, h4, h61, hd⟩
    rw [hs]
    refine ⟨by simp; omega, ?_, ⟨c, rfl, hc⟩, ⟨d, ?_, hd⟩⟩
    rotate_left
    · rw [← List.cons_append, List.getLast?_append]; rfl
    intro x hx
    simp only [List.mem_cons, List.mem_append, List.mem_singleton, List.not_mem_nil,
      or_false] at hx
    rcases hx with rfl | hx | rfl
    · exact Or.inl hc
    · rcases hall x hx with (h | h) | h
      · exact Or.inl (Or.inl h)
      · exact Or.inr h
      · exact Or.inl (Or.inr h)
    · exact Or.inl hd
  · rintro ⟨⟨h6, h63⟩, hall, ⟨c, hc, hcc⟩, ⟨d, hd, hdc⟩⟩
    cases hl : s.data with
    | nil => rw [hl] at h6; simp at h6
    | cons c1 t =>
      rw [hl] at hc hd hall h6 h63
      simp only [List.head?_cons, Option.some.injEq] at hc
      subst hc
      rcases List.eq_nil_or_concat t with rfl | ⟨mid, d1, rfl⟩
      · simp at h6
      · simp only [List.concat_eq_append] at hd hall h6 h63 ⊢
        have hd1 : d1 = d := by
          rw [← List.cons_append, List.getLast?_append] at hd
          simpa using hd
        subst hd1
        refine ⟨c1, mid, d1, rfl, hcc, ?_, ?_, ?_, hdc⟩
        · intro x hx
          rcases hall x (by simp [hx]) with (h | h) | h
          · exact Or.inl (Or.inl h)
          · exact Or.inr h
          · exact Or.inl (Or.inr h)
        · simp at h6; omega
        · simp at h63; omega

/-- C1. `IsBucketNameValid s` is true exactly when `s` has 6 to 63 characters,
each a lowercase ASCII letter, an ASCII digit or a hyphen, with a letter or a
digit first and last; on such names the length in bytes equals the length in
characters. "abc123" is accepted; "ab", "-abcde-" and "ABCdef" are rejected. -/
theorem IsBucketNameValid_spec :
    (∀ s : String, IsBucketNameValid s = true ↔ BucketNameRule s) ∧
    (∀ s : String, IsBucketNameValid s = true ↔
      BucketNameRule s ∧ 6 ≤ s.utf8ByteSize ∧ s.utf8ByteSize ≤ 63) ∧
    IsBucketNameValid "abc123" = true ∧
    IsBucketNameValid "ab" = false ∧
    IsBucketNameValid "-abcde-" = false ∧
    IsBucketNameValid "ABCdef" = false := by
  refine ⟨IsBucketNameValid_iff_BucketNameRule, ?_, by decide, by decide, by decide, by decide⟩
  intro s
  rw [IsBucketNameValid_iff_BucketNameRule]
  constructor
  · intro h
    have hb : s.utf8ByteSize = s.length := utf8ByteSize_ascii s.data h.2.1
    exact ⟨h, by rw [hb]; exact h.1.1, by rw [hb]; exact h.1.2⟩
  · exact fun h => h.1

/-! ## Properties: working directory and path translation -/

theorem HasPrefix_iff (s pre : String) :
    strings.HasPrefix s pre = true ↔ pre.data <+: s.data := by
  simp only [strings.HasPrefix, Bool.and_eq_true, decide_eq_true_eq, beq_iff_eq]
  constructor
  · rintro ⟨-, h⟩
    exact List.prefix_iff_eq_take.mpr h.symm
  · intro h
    exact ⟨h.length_le, (List.prefix_iff_eq_take.mp h).symm⟩

theorem HasSuffix_iff (s suf : String) :
    strings.HasSuffix s suf = true ↔ suf.data <:+ s.data := by
  simp only [strings.HasSuffix, Bool.and_eq_true, decide_eq_true_eq, beq_iff_eq]
  constructor
  · rintro ⟨-, h⟩
    exact List.suffix_iff_eq_drop.mpr h.symm
  · intro h
    exact ⟨h.length_le, (List.suffix_iff_eq_drop.mp h).symm⟩

theorem isWorkDirValid_iff_WorkDirShape (wd : String) :
    isWorkDirValid wd = true ↔ WorkDirShape wd := by
  have h1 : ("/" : String).data = ['/'] := rfl
  have h2 : ("//" : String).data = ['/', '/'] := rfl
  simp only [isWorkDirValid, WorkDirShape, Bool.and_eq_true, Bool.not_eq_true_eq_eq_false,
    Bool.not_eq_true', ← Bool.not_eq_true, HasPrefix_iff, HasSuffix_iff, h1, h2]
  constructor
  · rintro ⟨⟨⟨a, b⟩, c⟩, d⟩
    exact Or.inr ⟨a, c, b, d⟩
  · rintro (rfl | ⟨a, c, b, d⟩)
    · decide
    · exact ⟨⟨⟨a, b⟩, c⟩, d⟩

theorem TrimPrefix_append (pre path : String) :
    strings.TrimPrefix (pre ++ path) pre = path := by
  have h : strings.HasPrefix (pre ++ path) pre = true := by
    rw [HasPrefix_iff, String.data_append]
    exact List.prefix_append _ _
  simp [strings.TrimPrefix, h, String.data_append]

/-- C5. `isWorkDirValid wd` is true exactly when `wd` is "/" or begins with "/"
but not "//" and ends with "/" but not "//". "/", "/foo/" and "/foo/bar/" are
accepted; "foo/", "/foo", "//foo/" and "/foo//" are rejected. -/
theorem isWorkDirValid_spec :
    (∀ wd : String, isWorkDirValid wd = true ↔ WorkDirShape wd) ∧
    isWorkDirValid "/" = true ∧ isWorkDirValid "/foo/" = true ∧
    isWorkDirValid "/foo/bar/" = true ∧
    isWorkDirValid "foo/" = false ∧ isWorkDirValid "/foo" = false ∧
    isWorkDirValid "//foo/" = false ∧ isWorkDirValid "/foo//" = false := by
  refine ⟨isWorkDirValid_iff_WorkDirShape, ?_, ?_, ?_, ?_, ?_, ?_, ?_⟩ <;> decide

/-- C4. Path round trip: for every Storage and every logical path `p`
(whether or not `p` begins with the working directory minus its leading "/"),
`getRelPath (getAbsPath p) = p`. With working directory "/data/" the path
"x.txt" has the physical key "data/x.txt", which translates back to "x.txt". -/
theorem getRelPath_getAbsPath :
    (∀ (st : Storage) (p : String), st.getRelPath (st.getAbsPath p) = p) ∧
    (∀ st : Storage, st.workDir = "/data/" →
      st.getAbsPath "x.txt" = "data/x.txt" ∧ st.getRelPath "data/x.txt" = "x.txt") := by
  constructor
  · intro st p
    simp only [Storage.getRelPath, Storage.getAbsPath]
    exact TrimPrefix_append _ _
  · intro st h
    simp only [Storage.getRelPath, Storage.getAbsPath, h]
    constructor <;> decide

/-- Witness for C4 at the Storage with working directory "/data/". -/
theorem getRelPath_getAbsPath_witness :
    dataStorage.getRelPath (dataStorage.getAbsPath "x.txt") = "x.txt" ∧
    dataStorage.getAbsPath "x.txt" = "data/x.txt" ∧
    dataStorage.getRelPath "data/x.txt" = "x.txt" :=
  ⟨getRelPath_getAbsPath.1 dataStorage "x.txt", getRelPath_getAbsPath.2 dataStorage rfl⟩

/-! ## Properties: error normalisation -/

theorem As_of_mem_chain (err : GoError) (e : QingStorError)
    (h : GoError.qingstor e ∈ err.chain) : errors.As err = some e := by
  induction err with
  | sentinel n => simp [GoError.chain] at h
  | errorString m => simp [GoError.chain] at h
  | qingstor e1 =>
    simp only [GoError.chain, List.mem_singleton, GoError.qingstor.injEq] at h
    simp [errors.As, h]
  | wrapError f err sh ih =>
    simp only [GoError.chain, List.mem_cons, reduceCtorEq, false_or] at h
    simpa [errors.As] using ih h
  | pairRequired k => simp [GoError.chain] at h
  | serviceError op err sv n ih =>
    simp only [GoError.chain, List.mem_cons, reduceCtorEq, false_or] at h
    simpa [errors.As] using ih h

theorem mem_chain_of_As (err : GoError) (e : QingStorError)
    (h : errors.As err = some e) : GoError.qingstor e ∈ err.chain := by
  induction err with
  | sentinel n => simp [errors.As] at h
  | errorString m => simp [errors.As] at h
  | qingstor e1 =>
    simp only [errors.As, Option.some.injEq] at h
    simp [GoError.chain, h]
  | wrapError f err sh ih =>
    simp only [errors.As] at h
    simp [GoError.chain, ih h]
  | pairRequired k => simp [errors.As] at h
  | serviceError op err sv n ih =>
    simp only [errors.As] at h
    simp [GoError.chain, ih h]

theorem As_eq_none_of_no_vendor (err : GoError)
    (h : ∀ e, GoError.qingstor e ∉ err.chain) : errors.As err = none := by
  cases hAs : errors.As err with
  | none => rfl
  | some e => exact absurd (mem_chain_of_As err e hAs) (h e)

theorem formatError_some (e : GoError) : ∃ out, formatError (some e) = some out := by
  simp only [formatError, Option.bind]
  split
  · exact ⟨e, rfl⟩
  · split_ifs <;> exact ⟨_, rfl⟩

theorem Is_wrapError_self (f : String) (target : GoError) (sh : Option QingStorError) :
    errors.Is (.wrapError f target sh) target = true := by
  have h : errors.Is target target = true := by
    cases target <;> simp [errors.Is]
  simp [errors.Is, h]

/-- C2. For every error whose chain contains a vendor error `e`: with an empty
code and status 404 the result of `formatError` matches `ErrObjectNotExist`;
with code "object_not_exists" it matches `ErrObjectNotExist` whatever the
status; with code "permission_denied" it matches `ErrPermissionDenied` whatever
the status. -/
theorem formatError_classified (err : GoError) (e : QingStorError)
    (h : GoError.qingstor e ∈ err.chain) :
    (e.Code = "" → e.StatusCode = 404 →
      ∃ out, formatError (some err) = some out ∧
        errors.Is out services.ErrObjectNotExist = true) ∧
    (e.Code = "object_not_exists" →
      ∃ out, formatError (some err) = some out ∧
        errors.Is out services.ErrObjectNotExist = true) ∧
    (e.Code = "permission_denied" →
      ∃ out, formatError (some err) = some out ∧
        errors.Is out services.ErrPermissionDenied = true) := by
  have hAs := As_of_mem_chain err e h
  refine ⟨?_, ?_, ?_⟩
  · intro hc hs
    exact ⟨.wrapError "%w: %v" services.ErrObjectNotExist (some e),
      by simp [formatError, hAs, hc, hs], Is_wrapError_self _ _ _⟩
  · intro hc
    exact ⟨.wrapError "%w: %v" services.ErrObjectNotExist (some e),
      by simp [formatError, hAs, hc], Is_wrapError_self _ _ _⟩
  · intro hc
    exact ⟨.wrapError "%w: %v" services.ErrPermissionDenied (some e),
      by simp [formatError, hAs, hc], Is_wrapError_self _ _ _⟩

/-- Witness for C2: a wrapped body-less 404, a wrapped "object_not_exists" with
status 400, and a bare "permission_denied". -/
theorem formatError_classified_witness :
    (∃ out, formatError (some (wrapped bodylessNotFound)) = some out ∧
      errors.Is out services.ErrObjectNotExist = true) ∧
    (∃ out, formatError (some (wrapped objectNotExists)) = some out ∧
      errors.Is out services.ErrObjectNotExist = true) ∧
    (∃ out, formatError (some (.qingstor permissionDenied)) = some out ∧
      errors.Is out services.ErrPermissionDenied = true) :=
  ⟨(formatError_classified (wrapped bodylessNotFound) bodylessNotFound (by decide)).1 rfl rfl,
   (formatError_classified (wrapped objectNotExists) objectNotExists (by decide)).2.1 rfl,
   (formatError_classified (.qingstor permissionDenied) permissionDenied (by decide)).2.2 rfl⟩

/-- The wording of the unclassified cases: a non-empty code that is neither
"permission_denied" nor "object_not_exists", or an empty code with a status
other than 404. -/
theorem unclassified_formatError (err : GoError) (e : QingStorError)
    (hAs : errors.As err = some e)
    (hu : (e.Code ≠ "" ∧ e.Code ≠ "permission_denied" ∧ e.Code ≠ "object_not_exists") ∨
      (e.Code = "" ∧ e.StatusCode ≠ 404)) :
    formatError (some err) = some (.qingstor e) := by
  rcases hu with ⟨h1, h2, h3⟩ | ⟨h1, h2⟩
  · simp [formatError, hAs, h1, h2, h3]
  · simp [formatError, hAs, h1, h2]

/-- C3 as stated fails: an error that wraps a vendor error with the
unrecognised code "internal_error" is not returned itself; the wrapping is
dropped and the vendor error is returned. -/
theorem formatError_drops_wrapping :
    GoError.qingstor internalError ∈ (wrapped internalError).chain ∧
    (internalError.Code ≠ "" ∧ internalError.Code ≠ "permission_denied" ∧
      internalError.Code ≠ "object_not_exists") ∧
    formatError (some (wrapped internalError)) ≠ some (wrapped internalError) ∧
    formatError (some (wrapped internalError)) = some (.qingstor internalError) := by
  decide

/-- C3, amended. An error that is not and does not wrap a vendor error is
returned unchanged. For an error whose chain contains a vendor error `e` with
an unclassified code (non-empty and neither "permission_denied" nor
"object_not_exists", or empty with a status other than 404), `formatError`
returns `e`: the input itself when the input is `e`, and `e` without the
wrapping layers when the input wraps `e`. -/
theorem formatError_unclassified :
    (∀ err : GoError, (∀ e, GoError.qingstor e ∉ err.chain) →
      formatError (some err) = some err) ∧
    (∀ (err : GoError) (e : QingStorError), GoError.qingstor e ∈ err.chain →
      ((e.Code ≠ "" ∧ e.Code ≠ "permission_denied" ∧ e.Code ≠ "object_not_exists") ∨
        (e.Code = "" ∧ e.StatusCode ≠ 404)) →
      formatError (some err) = some (.qingstor e) ∧
      (err = .qingstor e → formatError (some err) = some err)) := by
  constructor
  · intro err h
    simp [formatError, As_eq_none_of_no_vendor err h]
  · intro err e h hu
    have hr := unclassified_formatError err e (As_of_mem_chain err e h) hu
    exact ⟨hr, fun heq => by rw [hr, heq]⟩

/-- Witness for C3, amended: a plain error passes through; a bare vendor error
with code "internal_error" passes through; a wrapped one comes back bare. -/
theorem formatError_unclassified_witness :
    formatError (some (.errorString "timeout")) = some (.errorString "timeout") ∧
    formatError (some (.qingstor internalError)) = some (.qingstor internalError) ∧
    formatError (some (wrapped internalError)) = some (.qingstor internalError) :=
  ⟨formatError_unclassified.1 (.errorString "timeout") (fun e => by simp [GoError.chain]),
   ((formatError_unclassified.2 (.qingstor internalError) internalError (by decide)
      (Or.inl (by decide))).2 rfl),
   (formatError_unclassified.2 (wrapped internalError) internalError (by decide)
      (Or.inl (by decide))).1⟩

/-! ## Properties: location detection -/

theorem splitLoop_dot_append (a t : List Char) (h : '.' ∉ a) :
    ∀ cur : List Char,
      strings.splitLoop ['.'] (a ++ t) 0 cur = strings.splitLoop ['.'] t 0 (a.reverse ++ cur) := by
  induction a with
  | nil => intro cur; rfl
  | cons c a ih =>
    intro cur
    have hc : ('.' == c) = false := by
      simp only [List.mem_cons, not_or] at h
      simpa using h.1
    have ha : '.' ∉ a := fun hm => h (List.mem_cons_of_mem _ hm)
    show strings.splitLoop ['.'] (c :: (a ++ t)) 0 cur = _
    simp only [strings.splitLoop, List.isPrefixOf, hc, Bool.false_and, Bool.false_eq_true,
      if_false]
    rw [ih ha]
    simp

theorem splitLoop_dot_cons (t cur : List Char) :
    strings.splitLoop ['.'] ('.' :: t) 0 cur = cur.reverse :: strings.splitLoop ['.'] t 0 [] := by
  simp [strings.splitLoop, List.isPrefixOf]

theorem Split_dot_of_no_dot (s : String) (h : '.' ∉ s.data) : strings.Split s "." = [s] := by
  have hsep : ("." : String).data = ['.'] := rfl
  have h1 := splitLoop_dot_append s.data [] h []
  simp only [List.append_nil] at h1
  simp [strings.Split, hsep, h1, strings.splitLoop]

theorem Split_dot_second (a b rest : String) (ha : '.' ∉ a.data) (hb : '.' ∉ b.data)
    (hrest : rest = "" ∨ rest.data.head? = some '.') :
    (strings.Split (a ++ "." ++ b ++ rest) ".")[1]? = some b := by
  have hsep : ("." : String).data = ['.'] := rfl
  have h1 : (a ++ "." ++ b ++ rest).data = a.data ++ ('.' :: (b.data ++ rest.data)) := by
    simp [String.data_append, hsep]
  have h2 := splitLoop_dot_append a.data ('.' :: (b.data ++ rest.data)) ha []
  have h3 := splitLoop_dot_append b.data rest.data hb []
  simp only [List.append_nil] at h2 h3
  simp only [strings.Split, hsep, h1, h2, splitLoop_dot_cons, h3, List.isEmpty_cons,
    Bool.false_eq_true, if_false, List.reverse_reverse, List.map_cons]
  rcases hrest with rfl | hr
  · simp [strings.splitLoop]
  · cases hd : rest.data with
    | nil => simp [hd] at hr
    | cons c t =>
      rw [hd] at hr
      simp only [List.head?_cons, Option.some.injEq] at hr
      subst hr
      simp [splitLoop_dot_cons]

/-- C6. Given the HEAD response `r`: when its status is not 307,
`detectLocation` returns a service error with operation "detect_location";
when its status is 307 and the `Location` header splits on "." into at least
two segments, `detectLocation` returns the second segment and a nil error. The
last part says the same with the header written out as `a.b` or `a.b.rest`,
where `a` and `b` contain no dot. -/
theorem detectLocation_spec (s : Service) (name : String) (r : Response)
    (hHead : s.Head (s.locationURL name) = .ok r) :
    (r.StatusCode ≠ 307 →
      (s.detectLocation name).out =
        .ret ("", some (.serviceError "detect_location"
          (.errorString ("head status is " ++ toString r.StatusCode ++ " instead of " ++
            toString http.StatusTemporaryRedirect)) s.config ""))) ∧
    (r.StatusCode = 307 →
      ∀ segs, strings.Split (r.HeaderGet headers.Location) "." = segs → 2 ≤ segs.length →
        ∃ seg, segs[1]? = some seg ∧ (s.detectLocation name).out = .ret (seg, none)) ∧
    (r.StatusCode = 307 →
      ∀ a b rest : String, '.' ∉ a.data → '.' ∉ b.data →
        (rest = "" ∨ rest.data.head? = some '.') →
        r.HeaderGet headers.Location = a ++ "." ++ b ++ rest →
        (s.detectLocation name).out = .ret (b, none)) := by
  refine ⟨?_, ?_, ?_⟩
  · intro hs
    have hs2 : r.StatusCode ≠ http.StatusTemporaryRedirect := hs
    simp [Service.detectLocation, hHead, hs2, Service.formatError, formatError, errors.As]
  · intro hs segs hsegs hlen
    have hs2 : r.StatusCode = http.StatusTemporaryRedirect := hs
    obtain ⟨seg, hseg⟩ : ∃ seg, segs[1]? = some seg := by
      cases hg : segs[1]? with
      | none => rw [List.getElem?_eq_none_iff] at hg; omega
      | some seg => exact ⟨seg, rfl⟩
    refine ⟨seg, hseg, ?_⟩
    simp [Service.detectLocation, hHead, hs2, hsegs, hseg, Service.formatError]
  · intro hs a b rest ha hb hrest hloc
    have hs2 : r.StatusCode = http.StatusTemporaryRedirect := hs
    have hseg := Split_dot_second a b rest ha hb hrest
    simp [Service.detectLocation, hHead, hs2, hloc, hseg, Service.formatError]

/-- Witness for C6: status 307 with
`Location: https://mybucket.pek3a.qingstor.example.com` yields "pek3a"; status
200 yields an error. -/
theorem detectLocation_spec_witness :
    ((sampleService redirectResponse).detectLocation "mybucket").out = .ret ("pek3a", none) ∧
    ((sampleService okResponse).detectLocation "mybucket").out =
      .ret ("", some (.serviceError "detect_location"
        (.errorString "head status is 200 instead of 307") sampleConfig "")) :=
  ⟨(detectLocation_spec (sampleService redirectResponse) "mybucket" redirectResponse rfl).2.2
      rfl "https://mybucket" "pek3a" ".qingstor.example.com" (by decide) (by decide)
      (Or.inr (by decide)) (by decide),
   (detectLocation_spec (sampleService okResponse) "mybucket" okResponse rfl).1 (by decide)⟩

/-- Without a dot in the `Location` header of a 307 response, indexing the
split header panics. -/
theorem detectLocation_no_dot (s : Service) (name : String) (r : Response)
    (hHead : s.Head (s.locationURL name) = .ok r) (hs : r.StatusCode = 307)
    (hloc : '.' ∉ (r.HeaderGet headers.Location).data) :
    (s.detectLocation name).out = .panic "runtime error: index out of range [1] with length 1" := by
  have hs2 : r.StatusCode = http.StatusTemporaryRedirect := hs
  simp only [Service.detectLocation, hHead, hs2, Split_dot_of_no_dot _ hloc]
  simp
  decide

/-- C7 fails on the code: a 307 response without a `Location` header, with an
empty one, or with one that contains no dot, makes `detectLocation` panic on
the index `[1]` instead of returning an error. -/
theorem detectLocation_panics_on_malformed_redirect :
    ((sampleService bareRedirect).detectLocation "mybucket").out =
      .panic "runtime error: index out of range [1] with length 1" ∧
    ((sampleService emptyRedirect).detectLocation "mybucket").out =
      .panic "runtime error: index out of range [1] with length 1" ∧
    ((sampleService dotlessRedirect).detectLocation "mybucket").out =
      .panic "runtime error: index out of range [1] with length 1" ∧
    (∀ loc e, ((sampleService bareRedirect).detectLocation "mybucket").out ≠
      .ret (loc, some e)) := by
  refine ⟨by decide, by decide, by decide, ?_⟩
  intro loc e
  have h : ((sampleService bareRedirect).detectLocation "mybucket").out =
      .panic "runtime error: index out of range [1] with length 1" := by decide
  rw [h]
  exact fun hne => Outcome.noConfusion hne

/-! ## Properties: storage construction -/

theorem newStorage_of_invalid_workDir (s : Service) (pairs : List Pair) (opt : pairStorageNew)
    (hp : parsePairStorageNew pairs = .ok opt) (hw : opt.HasWorkDir = true)
    (hv : isWorkDirValid opt.WorkDir = false) :
    s.newStorage pairs = { out := .ret (none, some ErrInvalidWorkDir), calls := [] } := by
  simp [Service.newStorage, hp, hw, hv]

theorem newStorage_of_invalid_name (s : Service) (pairs : List Pair) (opt : pairStorageNew)
    (hp : parsePairStorageNew pairs = .ok opt)
    (hw : ¬ (opt.HasWorkDir = true ∧ isWorkDirValid opt.WorkDir = false))
    (hn : IsBucketNameValid opt.Name = false) :
    s.newStorage pairs = { out := .ret (none, some ErrInvalidBucketName), calls := [] } := by
  have hw2 : (opt.HasWorkDir && !isWorkDirValid opt.WorkDir) = false := by
    cases h1 : opt.HasWorkDir <;> cases h2 : isWorkDirValid opt.WorkDir <;> simp_all
  have hname : (if (!opt.HasWorkDir) = true then { opt with WorkDir := "/" } else opt).Name =
      opt.Name := by
    split <;> rfl
  simp only [Service.newStorage, hp, hw2, Bool.false_eq_true, if_false, hname, hn, Bool.not_false,
    if_true]

/-- C8 as stated fails: with the invalid bucket name "ab" and the invalid
working directory "data", `newStorage` fails with `ErrInvalidWorkDir`, not with
`ErrInvalidBucketName`, because the working directory is checked first. -/
theorem invalid_workDir_masks_invalid_name :
    (∃ opt, parsePairStorageNew [.name "ab", .workDir "data"] = .ok opt ∧
      IsBucketNameValid opt.Name = false) ∧
    ((sampleService okResponse).newStorage [.name "ab", .workDir "data"]).out ≠
      .ret (none, some ErrInvalidBucketName) ∧
    ((sampleService okResponse).newStorage [.name "ab", .workDir "data"]).out =
      .ret (none, some ErrInvalidWorkDir) := by
  refine ⟨⟨_, rfl, by decide⟩, by decide, by decide⟩

/-- C8, amended. For every pair set whose bucket name violates the naming rule,
`newStorage` fails before any network call: neither the HEAD request of
location detection nor the vendor Bucket lookup is made. The error is
`ErrInvalidBucketName` when no working directory was supplied or the supplied
one is valid, and `ErrInvalidWorkDir` when a supplied working directory is
invalid, since that check comes first. -/
theorem newStorage_invalid_name (s : Service) (pairs : List Pair) (opt : pairStorageNew)
    (hp : parsePairStorageNew pairs = .ok opt) (hn : IsBucketNameValid opt.Name = false) :
    (s.newStorage pairs).calls = [] ∧
    (¬ (opt.HasWorkDir = true ∧ isWorkDirValid opt.WorkDir = false) →
      (s.newStorage pairs).out = .ret (none, some ErrInvalidBucketName)) ∧
    (opt.HasWorkDir = true ∧ isWorkDirValid opt.WorkDir = false →
      (s.newStorage pairs).out = .ret (none, some ErrInvalidWorkDir)) := by
  by_cases hw : opt.HasWorkDir = true ∧ isWorkDirValid opt.WorkDir = false
  · have h := newStorage_of_invalid_workDir s pairs opt hp hw.1 hw.2
    exact ⟨by rw [h], fun hnw => absurd hw hnw, fun _ => by rw [h]⟩
  · have h := newStorage_of_invalid_name s pairs opt hp hw hn
    exact ⟨by rw [h], fun _ => by rw [h], fun hw2 => absurd hw2 hw⟩

/-- Witness for C8, amended: the name "ab" alone, with the valid working
directory "/data/", and with the invalid working directory "data". -/
theorem newStorage_invalid_name_witness :
    ((sampleService okResponse).newStorage [.name "ab"]).calls = [] ∧
    ((sampleService okResponse).newStorage [.name "ab"]).out =
      .ret (none, some ErrInvalidBucketName) ∧
    ((sampleService okResponse).newStorage [.name "ab", .workDir "/data/"]).out =
      .ret (none, some ErrInvalidBucketName) ∧
    ((sampleService okResponse).newStorage [.name "ab", .workDir "data"]).out =
      .ret (none, some ErrInvalidWorkDir) :=
  ⟨(newStorage_invalid_name (sampleService okResponse) [.name "ab"] _ rfl (by decide)).1,
   (newStorage_invalid_name (sampleService okResponse) [.name "ab"] _ rfl (by decide)).2.1
      (by decide),
   (newStorage_invalid_name (sampleService okResponse) [.name "ab", .workDir "/data/"] _ rfl
      (by decide)).2.1 (by decide),
   (newStorage_invalid_name (sampleService okResponse) [.name "ab", .workDir "data"] _ rfl
      (by decide)).2.2 (by decide)⟩

theorem ret_err_ne_ret_nil (x : Option Storage) (e : GoError) :
    (Outcome.ret ((none : Option Storage), some e)) ≠ Outcome.ret (x, none) := by
  simp

theorem panic_ne_ret_nil (x : Option Storage) (msg : String) :
    (Outcome.panic msg : Outcome (Option Storage × Option GoError)) ≠ Outcome.ret (x, none) := by
  simp

theorem newStorage_success (s : Service) (pairs : List Pair) (x : Option Storage)
    (h : (s.newStorage pairs).out = .ret (x, none)) :
    ∃ opt st, parsePairStorageNew pairs = .ok opt ∧ x = some st ∧
      st.workDir = (if opt.HasWorkDir = true then opt.WorkDir else "/") ∧
      (opt.HasWorkDir = true → isWorkDirValid opt.WorkDir = true) := by
  cases hp : parsePairStorageNew pairs with
  | error err =>
    simp only [Service.newStorage, hp] at h
    exact absurd h (ret_err_ne_ret_nil _ _)
  | ok opt =>
    refine ⟨opt, ?_⟩
    simp only [Service.newStorage, hp] at h
    generalize (if (!(if (!opt.HasWorkDir) = true then
      { opt with WorkDir := "/" } else opt).HasLocation) = true then
        s.detectLocation (if (!opt.HasWorkDir) = true then
          { opt with WorkDir := "/" } else opt).Name
      else ({ out := .ret ((if (!opt.HasWorkDir) = true then
          { opt with WorkDir := "/" } else opt).Location, none), calls := [] } :
            Exec (String × Option GoError))) = D at h
    cases hW : opt.HasWorkDir <;> cases hV : isWorkDirValid opt.WorkDir <;>
      cases hN : IsBucketNameValid opt.Name <;>
      simp only [hW, hV, hN, Bool.not_true, Bool.not_false, Bool.and_true, Bool.and_false,
        Bool.true_and, Bool.false_and, Bool.false_eq_true, if_true, if_false] at h <;>
      try (exact absurd h (ret_err_ne_ret_nil _ _))
    all_goals
      rcases hDo : D.out with ⟨loc, _ | err⟩ | msg <;> rw [hDo] at h <;>
        try (first
          | exact absurd h (ret_err_ne_ret_nil _ _)
          | exact absurd h (panic_ne_ret_nil _ _))
    all_goals
      clear hDo
      cases hB : s.Bucket opt.Name loc <;> simp only [hB] at h <;>
        try (exact absurd h (ret_err_ne_ret_nil _ _))
    all_goals
      simp only [Outcome.ret.injEq, Prod.mk.injEq, and_true] at h
      subst h
      refine ⟨_, rfl, rfl, ?_, ?_⟩
    all_goals first
      | (intro _; rfl)
      | (intro hf; exact absurd hf (by decide))
      | (split <;> simp)

/-- C10 as stated fails: the pair set that supplies the malformed working
directory "data" and no bucket name does not parse, and `newStorage` returns
the parse error for the missing name, not `ErrInvalidWorkDir`; parsing comes
before the working-directory check. -/
theorem missing_name_masks_invalid_workDir :
    Pair.workDir "data" ∈ [Pair.workDir "data"] ∧
    ¬ WorkDirShape "data" ∧
    ((sampleService redirectResponse).newStorage [.workDir "data"]).out ≠
      .ret (none, some ErrInvalidWorkDir) ∧
    ((sampleService redirectResponse).newStorage [.workDir "data"]).out =
      .ret (none, some (.pairRequired "name")) := by
  refine ⟨by decide, ?_, by decide, by decide⟩
  rw [← isWorkDirValid_iff_WorkDirShape]
  decide

/-- C10, amended. When `newStorage` succeeds, the options parsed and the
returned Storage has working directory "/" when none was supplied and the
supplied value otherwise; either way it is "/" or begins with "/" but not "//"
and ends with "/" but not "//". On a pair set that parses, a supplied working
directory that violates this shape makes `newStorage` fail with
`ErrInvalidWorkDir`, returning no Storage and making no outside call. On a
pair set that does not parse, `newStorage` returns the parse error and no
Storage, and makes no outside call. -/
theorem newStorage_workDir (s : Service) (pairs : List Pair) :
    (∀ x, (s.newStorage pairs).out = .ret (x, none) →
      ∃ opt st, parsePairStorageNew pairs = .ok opt ∧ x = some st ∧
        st.workDir = (if opt.HasWorkDir = true then opt.WorkDir else "/") ∧
        WorkDirShape st.workDir) ∧
    (∀ opt, parsePairStorageNew pairs = .ok opt → opt.HasWorkDir = true →
      ¬ WorkDirShape opt.WorkDir →
      (s.newStorage pairs).out = .ret (none, some ErrInvalidWorkDir) ∧
        (s.newStorage pairs).calls = []) ∧
    (∀ err, parsePairStorageNew pairs = .error err →
      (s.newStorage pairs).out = .ret (none, some err) ∧
        (s.newStorage pairs).calls = []) := by
  refine ⟨?_, ?_, ?_⟩
  · intro x h
    obtain ⟨opt, st, hp, hx, hwd, hvalid⟩ := newStorage_success s pairs x h
    refine ⟨opt, st, hp, hx, hwd, ?_⟩
    rw [hwd]
    by_cases hw : opt.HasWorkDir = true
    · rw [if_pos hw]
      exact (isWorkDirValid_iff_WorkDirShape _).mp (hvalid hw)
    · rw [if_neg hw]
      exact Or.inl rfl
  · intro opt hp hw hshape
    have hv : isWorkDirValid opt.WorkDir = false := by
      cases hv : isWorkDirValid opt.WorkDir with
      | false => rfl
      | true => exact absurd ((isWorkDirValid_iff_WorkDirShape _).mp hv) hshape
    rw [newStorage_of_invalid_workDir s pairs opt hp hw hv]
    exact ⟨rfl, rfl⟩
  · intro err hp
    have h : s.newStorage pairs = { out := .ret (none, some err), calls := [] } := by
      simp only [Service.newStorage, hp]
    rw [h]
    exact ⟨rfl, rfl⟩

/-- Witness for C10, amended: construction with the working directory "/data/",
without a working directory, with the malformed working directory "data", and
with no bucket name. -/
theorem newStorage_workDir_witness :
    ((sampleService redirectResponse).newStorage [.name "mybucket", .workDir "/data/"]).out =
      .ret (some dataStorage, none) ∧
    ((sampleService redirectResponse).newStorage [.name "mybucket"]).out =
      .ret (some { dataStorage with workDir := "/" }, none) ∧
    (∃ opt st, parsePairStorageNew [.name "mybucket", .workDir "/data/"] = .ok opt ∧
      some { dataStorage with workDir := "/data/" } = some st ∧
      st.workDir = (if opt.HasWorkDir = true then opt.WorkDir else "/") ∧
      WorkDirShape st.workDir) ∧
    (∃ opt st, parsePairStorageNew [.name "mybucket"] = .ok opt ∧
      some { dataStorage with workDir := "/" } = some st ∧
      st.workDir = (if opt.HasWorkDir = true then opt.WorkDir else "/") ∧
      WorkDirShape st.workDir) ∧
    ((sampleService redirectResponse).newStorage [.name "mybucket", .workDir "data"]).out =
      .ret (none, some ErrInvalidWorkDir) ∧
    ((sampleService redirectResponse).newStorage [.workDir "data"]).out =
      .ret (none, some (.pairRequired "name")) :=
  ⟨by decide, by decide,
   (newStorage_workDir (sampleService redirectResponse) [.name "mybucket", .workDir "/data/"]).1
      _ (by decide),
   (newStorage_workDir (sampleService redirectResponse) [.name "mybucket"]).1 _ (by decide),
   ((newStorage_workDir (sampleService redirectResponse) [.name "mybucket", .workDir "data"]).2.1
      _ rfl rfl (by rw [← isWorkDirValid_iff_WorkDirShape]; decide)).1,
   ((newStorage_workDir (sampleService redirectResponse) [.workDir "data"]).2.2 _ rfl).1⟩

/-! ## Properties: object mapping -/

theorem unixToInternal_eq : unixToInternal = 62135596800 := by decide

theorem formatFileObject_ret (s : Storage) (v : KeyType) (key : String)
    (hkey : v.Key = some key) :
    ∃ o, s.formatFileObject v = .ret (o, none) ∧
      o.updatedAt = some (convertUnixTimestampToTime (service.IntValue v.Modified)) := by
  simp only [Storage.formatFileObject, hkey, setStorageClass]
  refine ⟨_, rfl, ?_⟩
  split_ifs <;> rfl

theorem convertUnixTimestampToTime_zero (t : GoInt64) (ht : t.val = 0) :
    convertUnixTimestampToTime t = { sec := 0, nsec := 0, loc := .UTC } := by
  simp [convertUnixTimestampToTime, ht, Time.zero]

theorem convertUnixTimestampToTime_in_range (t : GoInt64) (ht : t.val ≠ 0)
    (hle : t.val ≤ 9223371974719179007) :
    convertUnixTimestampToTime t = { sec := 62135596800 + t.val, nsec := 0, loc := .Local } := by
  have hlo : minInt64 ≤ t.val := t.property.1
  simp only [minInt64] at hlo
  simp only [convertUnixTimestampToTime, ht, if_false, time.Unix, time.unixTime,
    unixToInternal_eq, wrapInt64]
  simp only [lt_self_iff_false, false_or, show ¬ ((1000000000 : Int) ≤ 0) by decide, if_false,
    Time.mk.injEq, and_true]
  omega

/-- C9 as stated fails at two records. With the largest `int` as modification
timestamp the `int64` sum inside `time.Unix` wraps: the update time is stored
as -9223371974719179009 seconds, an instant before the Unix epoch and not
9223372036854775807 seconds after it. With a nil `Key` the call panics and no
object is produced. -/
theorem updatedAt_wraps_at_largest_int :
    (∃ o, dataStorage.formatFileObject latestKey = .ret (o, none) ∧
      o.updatedAt = some { sec := -9223371974719179009, nsec := 0, loc := .Local } ∧
      o.updatedAt ≠
        some { sec := 62135596800 + 9223372036854775807, nsec := 0, loc := .Local }) ∧
    (-9223371974719179009 : Int) < 62135596800 ∧
    dataStorage.formatFileObject keylessRecord =
      .panic "runtime error: invalid memory address or nil pointer dereference" := by
  refine ⟨⟨_, rfl, by decide, by decide⟩, by decide, by decide⟩

/-- C9, amended. For every vendor listing record that has a key,
`formatFileObject` returns an object whose update time is
`convertUnixTimestampToTime` of the record's modification timestamp. An absent
or zero timestamp gives the zero time value (second 0 of year 1, UTC), which
is not the Unix epoch (second 62135596800, counted from year 1). A non-zero
timestamp `t` up to 9223371974719179007 gives the local time `t` seconds after
the Unix epoch. -/
theorem formatFileObject_updatedAt (s : Storage) (v : KeyType) (key : String)
    (hkey : v.Key = some key) :
    ∃ o, s.formatFileObject v = .ret (o, none) ∧
      (v.Modified = none → o.updatedAt = some (convertUnixTimestampToTime ⟨0, by decide⟩)) ∧
      (∀ t : GoInt64, v.Modified = some t →
        o.updatedAt = some (convertUnixTimestampToTime t)) ∧
      (v.Modified = none → o.updatedAt = some { sec := 0, nsec := 0, loc := .UTC }) ∧
      (∀ t : GoInt64, v.Modified = some t → t.val = 0 →
        o.updatedAt = some { sec := 0, nsec := 0, loc := .UTC }) ∧
      (∀ t : GoInt64, v.Modified = some t → t.val ≠ 0 → t.val ≤ 9223371974719179007 →
        o.updatedAt = some { sec := 62135596800 + t.val, nsec := 0, loc := .Local }) ∧
      time.Unix ⟨0, by decide⟩ ⟨0, by decide⟩ = { sec := 62135596800, nsec := 0, loc := .Local } := by
  obtain ⟨o, ho, hu⟩ := formatFileObject_ret s v key hkey
  refine ⟨o, ho, ?_, ?_, ?_, ?_, ?_, by decide⟩
  · intro hm
    rw [hu, hm]
    rfl
  · intro t hm
    rw [hu, hm]
    rfl
  · intro hm
    rw [hu, hm]
    rfl
  · intro t hm ht
    rw [hu, hm]
    exact congrArg some (convertUnixTimestampToTime_zero t ht)
  · intro t hm ht hle
    rw [hu, hm]
    exact congrArg some (convertUnixTimestampToTime_in_range t ht hle)

/-- Witness for C9, amended: a record stamped 1600000000 maps to second
62135596800 + 1600000000 of the local time line, and a record without a
timestamp maps to the zero time value. -/
theorem formatFileObject_updatedAt_witness :
    (∃ o, dataStorage.formatFileObject stampedKey = .ret (o, none) ∧
      o.updatedAt = some { sec := 62135596800 + 1600000000, nsec := 0, loc := .Local }) ∧
    (∃ o, dataStorage.formatFileObject sampleKey = .ret (o, none) ∧
      o.updatedAt = some { sec := 0, nsec := 0, loc := .UTC }) := by
  constructor
  · obtain ⟨o, ho, -, -, -, -, h5, -⟩ :=
      formatFileObject_updatedAt dataStorage stampedKey "data/x.txt" rfl
    exact ⟨o, ho, h5 ⟨1600000000, by decide⟩ rfl (by decide) (by decide)⟩
  · obtain ⟨o, ho, -, -, h3, -, -, -⟩ :=
      formatFileObject_updatedAt dataStorage sampleKey "data/x.txt" rfl
    exact ⟨o, ho, h3 rfl⟩

end Qingstor
